import Mathlib

/-!
# The clouddrive account pool and cascading delete (backend/clouddrive/cloudDriveLib.go)

A shallow embedding of `cloudDriveLib.go`.

* Pointers to `ServiceAccount` are modelled by the value they point to; a nil
  pointer is `none`.
* Every call that leaves the process (authentication, `drive.NewService`,
  `About.Get`, `Files.Get`, `f.list`, `Files.Delete`) is recorded in a log of
  `Call`s, and its answer is an input of the model.
* A run either returns or stops with a Go runtime panic (`Outcome`).
* The package-level variable `lastServiceAccount` is the explicit state `Globals`.
-/

set_option autoImplicit false

namespace CloudDrive

/-! ## Data model -/

/-- Error values. `external` is an error produced outside this file (the JSON
decoder, the file system, the remote API); the other constructors are the
`fmt.Errorf` sites of `cloudDriveLib.go`. -/
inductive Err where
  | external (msg : String)
  | invalidKeyFilePath (path : String)
  | openMasterKey (cause : Err)
  | parseMasterKey (cause : Err)
  | parseIndexCredentials (cause : Err)
  | driveServiceFor (name : String) (cause : Err)
  | storageInfo (cause : Err)
  | storageFull
  | listFailed (cause : Err)
  | parseJson (cause : Err)
  | deleteFileFailed (name : String) (cause : Err)
  deriving DecidableEq, Repr

/-- A call either returns a value or stops with a runtime panic. -/
inductive Outcome (α : Type) where
  | returned (a : α)
  | panicked (reason : String)
  deriving DecidableEq, Repr

/-- The answer of a fallible call: Go's `(value, error)` pair. -/
inductive Answer (α : Type) where
  | ok (a : α)
  | error (e : Err)
  deriving DecidableEq, Repr

/-- A `json.RawMessage` / `[]byte` holding one credential blob, seen through what
`json.Unmarshal` into a `ServiceAccount` makes of it:
* `empty`: no bytes (the value of a missing map key), a syntax error;
* `invalid`: bytes that are not JSON, a syntax error, nothing is stored;
* `null`: the JSON literal `null`;
* `object key clientEmail typeError`: any other JSON value. `key` and
  `clientEmail` are its string members `"key"` and `"client_email"` when it has
  them; `typeError` says that the decoder reports a type mismatch (after having
  stored the members that fit).
The exported field `ServiceAccountJson` could be overwritten by a member of that
name; this is left out, the bytes only ever reach the authentication library. -/
inductive RawMessage where
  | empty
  | invalid (bytes : String)
  | null
  | object (key : Option String) (clientEmail : Option String) (typeError : Bool)
  deriving DecidableEq, Repr

/-- An authenticated `*http.Client`. -/
structure HttpClient where
  id : Nat
  deriving DecidableEq, Repr

/-- A `*drive.Service` session handle. -/
structure DriveService where
  id : Nat
  deriving DecidableEq, Repr

/-- The struct `ServiceAccount`. -/
structure ServiceAccount where
  ServiceAccountJson : RawMessage
  service : Option DriveService
  client : Option HttpClient
  Name : String
  ClientEmail : String
  deriving DecidableEq, Repr

/-- The value of `new(ServiceAccount)`. -/
def ServiceAccount.zero : ServiceAccount :=
  { ServiceAccountJson := .empty, service := none, client := none, Name := "", ClientEmail := "" }

/-- The struct `MasterKey`. A Go map has pairwise distinct keys and no iteration
order; the list order stands for the order in which `range` visits the map. -/
structure MasterKey where
  IndexStoreKey : String
  ServiceAccounts : List (String × RawMessage)
  deriving DecidableEq, Repr

/-- The struct `CloudDriveService`. `opts` is left out: it is only handed to
`getDriveService`, which ignores it. `serviceAccountMap` is an association list
read from the front, so that consing a pair overwrites the key. -/
structure CloudDriveService where
  IndexServiceAccount : ServiceAccount
  StorageServiceAccount : List ServiceAccount
  serviceAccountMap : List (String × ServiceAccount)
  deriving DecidableEq, Repr

/-- The package-level variable `lastServiceAccount`. -/
structure Globals where
  lastServiceAccount : Option ServiceAccount
  deriving DecidableEq, Repr

/-- The struct `drive.AboutStorageQuota`: two `int64`. -/
structure StorageQuota where
  Limit : Int
  Usage : Int
  deriving DecidableEq, Repr

/-- The fields of `drive.File` that the code reads. -/
structure File where
  Id : String
  Name : String
  MimeType : String
  Description : String
  deriving DecidableEq, Repr

/-- The constant `driveFolderType` of the drive backend. -/
def driveFolderType : String := "application/vnd.google-apps.folder"

/-- A call that leaves the process. -/
inductive Call where
  | getServiceAccountClient (json : RawMessage)
  | newService (client : HttpClient)
  | aboutGet (account : ServiceAccount) (svc : DriveService)
  | filesGet (id : String)
  | list (dirId : String)
  | filesDelete (account : ServiceAccount) (svc : DriveService) (id : String)
  | fsFilesDelete (id : String)
  deriving DecidableEq, Repr

/-- What the authentication library and `drive.NewService` answer when one
session is built. -/
structure SessionAnswers where
  client : Answer HttpClient
  service : Answer DriveService
  deriving DecidableEq, Repr

/-! ## Sessions (lines 82-98) -/

/-- `(*ServiceAccount).getHttpClientWith`. -/
def getHttpClientWith (ans : SessionAnswers) (s : ServiceAccount) :
    List Call × Answer HttpClient :=
  match s.client with
  | some cl => ([], .ok cl)
  | none => ([.getServiceAccountClient s.ServiceAccountJson], ans.client)

/-- `(*ServiceAccount).getDriveService`. The receiver is never assigned to. -/
def getDriveService (ans : SessionAnswers) (s : ServiceAccount) :
    List Call × Answer DriveService :=
  match s.service with
  | some svc => ([], .ok svc)
  | none =>
    match getHttpClientWith ans s with
    | (log, .error e) => (log, .error e)
    | (log, .ok cl) => (log ++ [.newService cl], ans.service)

/-! ## Loading the bundle (lines 40-80) -/

/-- `json.Unmarshal(data, s)` for `s : *ServiceAccount`: the decoded account and
the error. -/
def unmarshalServiceAccount (data : RawMessage) (s : ServiceAccount) :
    ServiceAccount × Option Err :=
  match data with
  | .empty => (s, some (.external "unexpected end of JSON input"))
  | .invalid _ => (s, some (.external "invalid character"))
  | .null => (s, none)
  | .object key clientEmail typeError =>
    ({ s with Name := key.getD s.Name, ClientEmail := clientEmail.getD s.ClientEmail },
      if typeError then some (.external "json: cannot unmarshal") else none)

/-- `json.Unmarshal(v, &temp)` for `temp : *ServiceAccount` (line 69): the
pointer `temp` afterwards, `none` when the literal `null` has set it to nil. The
error is dropped by the caller. -/
def unmarshalServiceAccountPtr (v : RawMessage) (temp : ServiceAccount) :
    Option ServiceAccount :=
  match v with
  | .null => none
  | d => some (unmarshalServiceAccount d temp).1

/-- The loop of lines 66-74 over the entries of `masterKey.ServiceAccounts`. -/
def loadStorageAccounts (indexName : String) :
    List (String × RawMessage) → Outcome (List ServiceAccount)
  | [] => .returned []
  | (k, v) :: rest =>
    if k ≠ indexName then
      match unmarshalServiceAccountPtr v ServiceAccount.zero with
      | none => .panicked "nil pointer dereference: temp.Name"
      | some temp =>
        match loadStorageAccounts indexName rest with
        | .panicked r => .panicked r
        | .returned accs => .returned ({ temp with Name := k, ServiceAccountJson := v } :: accs)
    else loadStorageAccounts indexName rest

/-- The value of `masterKey.ServiceAccounts[key]`. -/
def lookupBlob (m : List (String × RawMessage)) (key : String) : RawMessage :=
  (m.lookup key).getD .empty

/-- `NewCloudDriveService`. `file` is what reading and parsing the key file
gives: the read error, the parse error or the parsed `MasterKey`. `ans` answers
the session built for the index account on line 77. -/
def NewCloudDriveService (keyFile : String) (file : Answer (Answer MasterKey))
    (ans : SessionAnswers) : List Call × Outcome (Answer CloudDriveService) :=
  if keyFile = "" then ([], .returned (.error (.invalidKeyFilePath keyFile)))
  else
    match file with
    | .error e => ([], .returned (.error (.openMasterKey e)))
    | .ok (.error e) => ([], .returned (.error (.parseMasterKey e)))
    | .ok (.ok masterKey) =>
      let blob := lookupBlob masterKey.ServiceAccounts masterKey.IndexStoreKey
      match unmarshalServiceAccount blob { ServiceAccount.zero with ServiceAccountJson := blob } with
      | (_, some e) => ([], .returned (.error (.parseIndexCredentials e)))
      | (index, none) =>
        match loadStorageAccounts index.Name masterKey.ServiceAccounts with
        | .panicked r => ([], .panicked r)
        | .returned accs =>
          ((getDriveService ans index).1,
            .returned (.ok { IndexServiceAccount := index, StorageServiceAccount := accs,
                             serviceAccountMap := [] }))

/-! ## Quota-aware selection (lines 100-121) -/

/-- Which variable `&storageAccount` on line 114 denotes. The module file
(`go.mod`) that fixes the language version is not among the sources. With a `go`
directive below 1.22 a `for ... range` loop has ONE variable for all iterations
(`shared`), so the pointer kept in `lastServiceAccount` sees every later
assignment of the loop; from 1.22 on each iteration has its own variable
(`perIteration`). The option table of `scopes.go` is that of rclone before its
v1.64 (no `env_auth`, no `fast_list_bug_fix`), whose module file names a Go
version below 1.22: the build of this repository is `shared`. -/
inductive LoopVar where
  | shared
  | perIteration
  deriving DecidableEq, Repr

/-- Subtraction of two `int64`, wrapping around. -/
def sub64 (a b : Int) : Int :=
  (a - b + 2 ^ 63) % 2 ^ 64 - 2 ^ 63

/-- The free capacity `abt.StorageQuota.Limit - abt.StorageQuota.Usage`. -/
def freeCapacity (q : StorageQuota) : Int :=
  sub64 q.Limit q.Usage

/-- What the remote answers while one storage account is scanned: the session
and `About.Get().Fields("storageQuota").Do()`, whose result holds the pointer
`StorageQuota` (`none` when it is nil). -/
structure Probe where
  session : SessionAnswers
  about : Answer (Option StorageQuota)
  deriving DecidableEq, Repr

/-- How the loop of lines 104-116 ends. -/
inductive ScanEnd where
  | completed
  | failed (e : Err)
  | panicked (reason : String)
  deriving DecidableEq, Repr

/-- The assignment of the next element to the loop variable `storageAccount`,
seen from `lastServiceAccount`: when the pointer is set it points to the loop
variable under `shared`, so it now sees `a`. -/
def rebind (lv : LoopVar) (a : ServiceAccount) (sel : Option ServiceAccount) :
    Option ServiceAccount :=
  match lv with
  | .shared => sel.map (fun _ => a)
  | .perIteration => sel

/-- The loop of lines 104-116 from the `k`-th element on. `sel` is what
`lastServiceAccount` points to; `probes k` answers the queries of the `k`-th
iteration. Gives the final `lastServiceAccount`, the calls and how the loop
ended. -/
def scanAccounts (lv : LoopVar) (size : Int) (probes : Nat → Probe) :
    List ServiceAccount → Nat → Option ServiceAccount →
      Option ServiceAccount × List Call × ScanEnd
  | [], _, sel => (sel, [], .completed)
  | storageAccount :: rest, k, sel =>
    let sel := rebind lv storageAccount sel
    match getDriveService (probes k).session storageAccount with
    | (log, .error e) => (sel, log, .failed (.driveServiceFor storageAccount.Name e))
    | (log, .ok service) =>
      match (probes k).about with
      | .error e => (sel, log ++ [.aboutGet storageAccount service], .failed (.storageInfo e))
      | .ok none =>
        (sel, log ++ [.aboutGet storageAccount service],
          .panicked "nil pointer dereference: abt.StorageQuota")
      | .ok (some quota) =>
        let sel := if size < freeCapacity quota then some storageAccount else sel
        let r := scanAccounts lv size probes rest (k + 1) sel
        (r.1, log ++ [.aboutGet storageAccount service] ++ r.2.1, r.2.2)

/-- The result of one call of `getNextServiceAccount`. -/
structure Selection where
  globals : Globals
  log : List Call
  out : Outcome (Answer ServiceAccount)
  deriving DecidableEq, Repr

/-- `(*CloudDriveService).getNextServiceAccount`. -/
def getNextServiceAccount (lv : LoopVar) (c : CloudDriveService) (size : Int)
    (probes : Nat → Probe) (g : Globals) : Selection :=
  match g.lastServiceAccount with
  | some a => { globals := g, log := [], out := .returned (.ok a) }
  | none =>
    match scanAccounts lv size probes c.StorageServiceAccount 0 none with
    | (sel, log, .failed e) => { globals := ⟨sel⟩, log := log, out := .returned (.error e) }
    | (sel, log, .panicked r) => { globals := ⟨sel⟩, log := log, out := .panicked r }
    | (none, log, .completed) =>
      { globals := ⟨none⟩, log := log, out := .returned (.error .storageFull) }
    | (some a, log, .completed) => { globals := ⟨some a⟩, log := log, out := .returned (.ok a) }

/-! ## Lookup by name (lines 123-135) -/

/-- `(*CloudDriveService).getServiceAccountByName`: the account (`none` for nil)
and the service with its name cache afterwards. -/
def getServiceAccountByName (c : CloudDriveService) (name : String) :
    Option ServiceAccount × CloudDriveService :=
  match c.serviceAccountMap.lookup name with
  | some account => (some account, c)
  | none =>
    match c.StorageServiceAccount.find? (fun acc => acc.Name = name) with
    | some acc => (some acc, { c with serviceAccountMap := (acc.Name, acc) :: c.serviceAccountMap })
    | none => (none, c)

/-! ## Cascading delete (lines 137-190) -/

/-- What the remote answers along one run of `delete(id)`.
* `missing e`: `f.svc.Files.Get(id)` fails with `e`.
* `found file children listErr session objectDelete`: `Files.Get(id)` returns
  `file`. When the code lists the entry, `f.list` hands `children` to its
  callback in this order (the `Id` of each child, and what the remote answers
  along `delete` of that child) and then returns `listErr`. When the code calls
  `deleteFile`, `session` answers the session it builds and `objectDelete` is the
  error of its `Files.Delete` (`none`: no error).
The error of the last `Files.Delete` (line 188) is dropped by the code and has no
place here. -/
inductive Entry where
  | missing (e : Err)
  | found (file : File) (children : List (String × Entry)) (listErr : Option Err)
      (session : SessionAnswers) (objectDelete : Option Err)

/-- The result of one call of `delete`: the service afterwards (its name cache
may have grown), the calls, and the returned pair `(bool, error)`. -/
structure DeleteRun where
  svc : CloudDriveService
  log : List Call
  out : Outcome (Bool × Option Err)
  deriving DecidableEq, Repr

/-- `(*CloudDriveService).deleteFile`. -/
def deleteFile (c : CloudDriveService) (session : SessionAnswers) (objectDelete : Option Err)
    (file : File) : CloudDriveService × List Call × Outcome (Option Err) :=
  if file.Description = "" ∨ file.MimeType = driveFolderType then
    match getDriveService session c.IndexServiceAccount with
    | (log, .error e) => (c, log, .returned (some e))
    | (log, .ok svc) =>
      (c, log ++ [.filesDelete c.IndexServiceAccount svc file.Id], .returned objectDelete)
  else
    match getServiceAccountByName c file.Description with
    | (none, c1) => (c1, [], .panicked "nil pointer dereference: s.service")
    | (some serviceAccount, c1) =>
      match getDriveService session serviceAccount with
      | (log, .error e) => (c1, log, .returned (some e))
      | (log, .ok svc) =>
        (c1, log ++ [.filesDelete serviceAccount svc file.Id], .returned objectDelete)

mutual
/-- `(*CloudDriveService).delete`. `decode` is `json.Unmarshal` of an annotation
into a `drive.File`. -/
def delete (c : CloudDriveService) (decode : String → Answer File) (id : String) :
    Entry → DeleteRun
  | .missing e => { svc := c, log := [.filesGet id], out := .returned (false, some e) }
  | .found file children listErr session objectDelete =>
    if file.MimeType = driveFolderType ∨ file.Description = "" then
      match deleteChildren c decode children with
      | (c1, log, some r) =>
        { svc := c1, log := [.filesGet id, .list file.Id] ++ log, out := .panicked r }
      | (c1, log, none) =>
        match listErr with
        | some e =>
          { svc := c1, log := [.filesGet id, .list file.Id] ++ log,
            out := .returned (false, some (.listFailed e)) }
        | none =>
          { svc := c1, log := [.filesGet id, .list file.Id] ++ log ++ [.fsFilesDelete file.Id],
            out := .returned (true, none) }
    else
      match decode file.Description with
      | .error e => { svc := c, log := [.filesGet id], out := .returned (false, some (.parseJson e)) }
      | .ok actualFile =>
        match deleteFile c session objectDelete actualFile with
        | (c1, log, .panicked r) => { svc := c1, log := [.filesGet id] ++ log, out := .panicked r }
        | (c1, log, .returned (some e)) =>
          { svc := c1, log := [.filesGet id] ++ log,
            out := .returned (false, some (.deleteFileFailed actualFile.Name e)) }
        | (c1, log, .returned none) =>
          { svc := c1, log := [.filesGet id] ++ log ++ [.fsFilesDelete file.Id],
            out := .returned (true, none) }
/-- The callback of `f.list` (lines 167-170) run over the listed children: the
result of each `delete` is dropped, a panic ends the run. -/
def deleteChildren (c : CloudDriveService) (decode : String → Answer File) :
    List (String × Entry) → CloudDriveService × List Call × Option String
  | [] => (c, [], none)
  | (childId, child) :: rest =>
    match delete c decode childId child with
    | { svc := c1, log := log, out := .panicked r } => (c1, log, some r)
    | { svc := c1, log := log, out := .returned _ } =>
      let r := deleteChildren c1 decode rest
      (r.1, log ++ r.2.1, r.2.2)
end


/-! ## Sequences of selections -/

/-- The calls of `getNextServiceAccount` run one after the other from the
globals `g`; each call has its own pool, size and probes. -/
def laterCalls (lv : LoopVar) :
    Globals → List (CloudDriveService × Int × (Nat → Probe)) → List Selection
  | _, [] => []
  | g, (c, size, probes) :: rest =>
    let r := getNextServiceAccount lv c size probes g
    r :: laterCalls lv r.globals rest


/-! ## Concrete inputs used by the evaluations below -/

/-- A storage account as `NewCloudDriveService` builds it from the key `name`. -/
def storageAccount (name : String) : ServiceAccount :=
  { ServiceAccountJson := .object none (some name) false, service := none, client := none,
    Name := name, ClientEmail := name }

/-- Session answers that succeed with the handles numbered `k`. -/
def sessionOk (k : Nat) : SessionAnswers :=
  { client := .ok ⟨k⟩, service := .ok ⟨k⟩ }

/-- A bundle of two ordinary credential documents (no member `"key"`), the
first of which is designated as index. -/
def bundleTwoKeys : MasterKey :=
  { IndexStoreKey := "index",
    ServiceAccounts := [("index", .object none (some "index@p.iam") false),
                        ("s1", .object none (some "s1@p.iam") false)] }

/-- A service whose pool is `[a, b]`, with an empty name cache. -/
def poolAB : CloudDriveService :=
  { IndexServiceAccount := storageAccount "index",
    StorageServiceAccount := [storageAccount "a", storageAccount "b"],
    serviceAccountMap := [] }

/-- Probes that succeed and report the quotas `qs` in scan order (and an error
beyond them). -/
def probesOf (qs : List StorageQuota) (k : Nat) : Probe :=
  { session := sessionOk k,
    about := match qs.get? k with
      | some q => .ok (some q)
      | none => .error (.external "no answer") }


/-- Two accounts that both report 100 free bytes. -/
def quotasBothFit : List StorageQuota :=
  [{ Limit := 100, Usage := 0 }, { Limit := 100, Usage := 0 }]

/-- The first account reports 100 free bytes, the second none. -/
def quotasFirstFits : List StorageQuota :=
  [{ Limit := 100, Usage := 0 }, { Limit := 100, Usage := 100 }]

/-- A decoder of annotations for the evaluations: four annotations decode to a
descriptor, every other string is a decode error. -/
def decodeSample (text : String) : Answer File :=
  if text = "descriptor obj1 of a" then
    .ok { Id := "obj1", Name := "one", MimeType := "text/plain", Description := "a" }
  else if text = "descriptor obj2 of b" then
    .ok { Id := "obj2", Name := "two", MimeType := "text/plain", Description := "b" }
  else if text = "descriptor obj3 of ghost" then
    .ok { Id := "obj3", Name := "three", MimeType := "text/plain", Description := "ghost" }
  else if text = "descriptor folder obj4 of a" then
    .ok { Id := "obj4", Name := "four", MimeType := driveFolderType, Description := "a" }
  else .error (.external "invalid character")

/-- A placeholder entry `id` carrying the annotation `text`, all of whose remote calls
succeed. -/
def placeholder (id text : String) : Entry :=
  .found { Id := id, Name := id, MimeType := "text/plain", Description := text }
    [] none (sessionOk 7) none

/-- A directory entry `id` with the given children, all of whose remote calls
succeed. -/
def directory (id : String) (children : List (String × Entry)) : Entry :=
  .found { Id := id, Name := id, MimeType := driveFolderType, Description := "" }
    children none (sessionOk 0) none

/-! ## Reading a call log and a tree of entries -/

/-- The real-object delete calls of a log (`Files.Delete` issued by
`deleteFile`), in order: the account whose session is used, and the object id. -/
def objectDeletes (log : List Call) : List (ServiceAccount × String) :=
  log.filterMap fun call =>
    match call with
    | .filesDelete account _ id => some (account, id)
    | _ => none

/-- The index-entry delete calls of a log (`f.svc.Files.Delete`, line 188), in
order: the entry id. -/
def indexDeletes (log : List Call) : List String :=
  log.filterMap fun call =>
    match call with
    | .fsFilesDelete id => some id
    | _ => none

/-- Every cached pair of the name cache is what a scan of the pool for that name
finds. This holds for the empty cache of `NewCloudDriveService` and is kept by
`getServiceAccountByName`. -/
def cacheSound (c : CloudDriveService) : Bool :=
  c.serviceAccountMap.all fun p =>
    c.StorageServiceAccount.find? (fun acc => acc.Name = p.1) == some p.2

/-- An entry is a placeholder: not a directory, with a non-empty annotation. -/
def isPlaceholder : Entry → Bool
  | .missing _ => false
  | .found file _ _ _ _ => decide (file.MimeType ≠ driveFolderType ∧ file.Description ≠ "")

mutual
/-- A finite tree of directories and placeholder leaves on which every remote
call succeeds: every metadata fetch and every listing succeeds; a leaf is not a
directory, has no children and a non-empty annotation that decodes to a
descriptor which is not folder-typed and names, by a non-empty name, an owner of
the pool; the owner's session is built and its delete call succeeds. -/
def wellFormedTree (pool : List ServiceAccount) (decode : String → Answer File) :
    Entry → Bool
  | .missing _ => false
  | .found file children listErr session objectDelete =>
    if file.MimeType = driveFolderType then
      listErr.isNone && wellFormedChildren pool decode children
    else
      decide (file.Description ≠ "") && children.isEmpty &&
        match decode file.Description with
        | .error _ => false
        | .ok d =>
          decide (d.Description ≠ "") && decide (d.MimeType ≠ driveFolderType) &&
            match pool.find? (fun acc => acc.Name = d.Description) with
            | none => false
            | some owner =>
              objectDelete.isNone &&
                match (getDriveService session owner).2 with
                | .ok _ => true
                | .error _ => false
/-- `wellFormedTree` for every child of a listing. -/
def wellFormedChildren (pool : List ServiceAccount) (decode : String → Answer File) :
    List (String × Entry) → Bool
  | [] => true
  | (_, child) :: rest => wellFormedTree pool decode child && wellFormedChildren pool decode rest
end

mutual
/-- The number N of placeholder leaves of a tree. -/
def leafCount : Entry → Nat
  | .missing _ => 0
  | .found file children _ _ _ =>
    if file.MimeType = driveFolderType then leafCountChildren children else 1
/-- The leaves below a listing. -/
def leafCountChildren : List (String × Entry) → Nat
  | [] => 0
  | (_, child) :: rest => leafCount child + leafCountChildren rest
end

mutual
/-- The number D of directories of a tree. -/
def dirCount : Entry → Nat
  | .missing _ => 0
  | .found file children _ _ _ =>
    if file.MimeType = driveFolderType then 1 + dirCountChildren children else 0
/-- The directories below a listing. -/
def dirCountChildren : List (String × Entry) → Nat
  | [] => 0
  | (_, child) :: rest => dirCount child + dirCountChildren rest
end

mutual
/-- The ids of all entries of a tree, children before their directory. -/
def entryIds : Entry → List String
  | .missing _ => []
  | .found file children _ _ _ =>
    if file.MimeType = driveFolderType then entryIdsChildren children ++ [file.Id]
    else [file.Id]
/-- The ids of all entries below a listing. -/
def entryIdsChildren : List (String × Entry) → List String
  | [] => []
  | (_, child) :: rest => entryIds child ++ entryIdsChildren rest
end

mutual
/-- For every placeholder leaf of a tree, in listing order: the account of the
pool that bears the owner name recorded in the leaf's annotation, and the object
id recorded there. -/
def leafTargets (pool : List ServiceAccount) (decode : String → Answer File) :
    Entry → List (ServiceAccount × String)
  | .missing _ => []
  | .found file children _ _ _ =>
    if file.MimeType = driveFolderType then leafTargetsChildren pool decode children
    else
      match decode file.Description with
      | .error _ => []
      | .ok d =>
        match pool.find? (fun acc => acc.Name = d.Description) with
        | none => []
        | some owner => [(owner, d.Id)]
/-- The targets of the leaves below a listing. -/
def leafTargetsChildren (pool : List ServiceAccount) (decode : String → Answer File) :
    List (String × Entry) → List (ServiceAccount × String)
  | [] => []
  | (_, child) :: rest => leafTargets pool decode child ++ leafTargetsChildren pool decode rest
end

/-- A directory with the two placeholders "l1" (object "obj1" of `a`) and "l2"
(object "obj2" of `b`) and a sub-directory holding "l3" (object "obj1" of `a`). -/
def treeSample : Entry :=
  directory "root"
    [("l1", placeholder "l1" "descriptor obj1 of a"),
     ("l2", placeholder "l2" "descriptor obj2 of b"),
     ("sub", directory "sub" [("l3", placeholder "l3" "descriptor obj1 of a")])]

/-- The calls of `delete` of each listed child on its own, from the service `c`,
one child after the other. -/
def childLogs (c : CloudDriveService) (decode : String → Answer File) :
    List (String × Entry) → List Call
  | [] => []
  | (childId, child) :: rest => (delete c decode childId child).log ++ childLogs c decode rest

/-- The metadata that `Files.Get` returns for an entry, if it returns any. -/
def entryFile : Entry → Option File
  | .missing _ => none
  | .found file _ _ _ _ => some file

/-- A directory whose only leaf "l4" records the folder-typed object "obj4" of
the owner `a`. -/
def treeFolderTypedLeaf : Entry :=
  directory "root" [("l4", placeholder "l4" "descriptor folder obj4 of a")]

/-- A directory of three placeholders, the second of which carries an annotation
that does not decode. -/
def treeOneBadLeaf : Entry :=
  directory "root"
    [("l1", placeholder "l1" "descriptor obj1 of a"),
     ("l2", placeholder "l2" "not a descriptor"),
     ("l3", placeholder "l3" "descriptor obj2 of b")]

/-! ## Sessions and lookups as state passing -/

/-- One call of `getDriveService` together with its receiver afterwards. -/
structure SessionRun where
  receiver : ServiceAccount
  log : List Call
  out : Answer DriveService
  deriving DecidableEq, Repr

/-- `(*ServiceAccount).getDriveService` with the receiver `*s` after the call.
Neither `getDriveService` nor `getHttpClientWith` assigns to a field of `s`
(lines 82-98 only read `s.client`, `s.service` and `s.ServiceAccountJson`), so
the receiver afterwards is the receiver before. -/
def getDriveServiceRun (ans : SessionAnswers) (s : ServiceAccount) : SessionRun :=
  { receiver := s, log := (getDriveService ans s).1, out := (getDriveService ans s).2 }

/-- The services reachable from `NewCloudDriveService` by calls of
`getServiceAccountByName`. -/
inductive Reachable : CloudDriveService → Prop where
  | init (keyFile : String) (file : Answer (Answer MasterKey)) (ans : SessionAnswers)
      (c : CloudDriveService)
      (h : (NewCloudDriveService keyFile file ans).2 = .returned (.ok c)) : Reachable c
  | step (c : CloudDriveService) (name : String) (h : Reachable c) :
      Reachable (getServiceAccountByName c name).2

/-- The service that `NewCloudDriveService` builds from `bundleTwoKeys`. -/
def serviceTwoKeys : CloudDriveService :=
  { IndexServiceAccount :=
      { ServiceAccountJson := .object none (some "index@p.iam") false, service := none,
        client := none, Name := "", ClientEmail := "index@p.iam" },
    StorageServiceAccount :=
      [{ ServiceAccountJson := .object none (some "index@p.iam") false, service := none,
         client := none, Name := "index", ClientEmail := "index@p.iam" },
       { ServiceAccountJson := .object none (some "s1@p.iam") false, service := none,
         client := none, Name := "s1", ClientEmail := "s1@p.iam" }],
    serviceAccountMap := [] }

/-- Only the first account scanned gets a quota answer (100 free bytes); the
quota query of the second fails. -/
def quotasSecondFails : List StorageQuota :=
  [{ Limit := 100, Usage := 0 }]

/-! # Theorems -/

/-! ## Selection: lemmas -/

theorem getNextServiceAccount_memo (lv : LoopVar) (c : CloudDriveService) (size : Int)
    (probes : Nat → Probe) (g : Globals) (a : ServiceAccount)
    (h : g.lastServiceAccount = some a) :
    getNextServiceAccount lv c size probes g
      = { globals := g, log := [], out := .returned (.ok a) } := by
  simp [getNextServiceAccount, h]

theorem getNextServiceAccount_ok_memoized (lv : LoopVar) (c : CloudDriveService) (size : Int)
    (probes : Nat → Probe) (g : Globals) (a : ServiceAccount)
    (h : (getNextServiceAccount lv c size probes g).out = .returned (.ok a)) :
    (getNextServiceAccount lv c size probes g).globals.lastServiceAccount = some a := by
  unfold getNextServiceAccount at h ⊢
  cases hg : g.lastServiceAccount with
  | some b =>
    simp only [hg] at h ⊢
    simp only [Outcome.returned.injEq, Answer.ok.injEq] at h
    rw [← h]
  | none =>
    simp only [hg] at h ⊢
    rcases hs : scanAccounts lv size probes c.StorageServiceAccount 0 none with ⟨sel, log, e⟩
    rw [hs] at h
    cases e with
    | failed e => simp at h
    | panicked r => simp at h
    | completed =>
      cases sel with
      | none => simp at h
      | some b =>
        simp only [Outcome.returned.injEq, Answer.ok.injEq] at h
        simp [h]

theorem laterCalls_memo (lv : LoopVar) (a : ServiceAccount) (g : Globals)
    (hg : g.lastServiceAccount = some a)
    (calls : List (CloudDriveService × Int × (Nat → Probe))) :
    ∀ r ∈ laterCalls lv g calls, r = { globals := g, log := [], out := .returned (.ok a) } := by
  induction calls with
  | nil => intro r hr; simp [laterCalls] at hr
  | cons x rest ih =>
    obtain ⟨c, size, probes⟩ := x
    intro r hr
    simp only [laterCalls, List.mem_cons] at hr
    rw [getNextServiceAccount_memo lv c size probes g a hg] at hr
    rcases hr with h | h
    · exact h
    · exact ih r h

theorem scanAccounts_none_fit (lv : LoopVar) (size : Int) (probes : Nat → Probe) :
    ∀ (l : List ServiceAccount) (k : Nat),
      (∀ i a, l[i]? = some a → ∃ svc q,
        (getDriveService (probes (k + i)).session a).2 = .ok svc ∧
        (probes (k + i)).about = .ok (some q) ∧ ¬ size < freeCapacity q) →
      (scanAccounts lv size probes l k none).1 = none ∧
      (scanAccounts lv size probes l k none).2.2 = .completed := by
  intro l
  induction l with
  | nil => intro k _; simp [scanAccounts]
  | cons a rest ih =>
    intro k h
    obtain ⟨svc, q, hs, hq, hfit⟩ := h 0 a (by simp)
    have hrest := ih (k + 1) (by
      intro i b hb
      have := h (i + 1) b (by simpa using hb)
      rwa [show k + (i + 1) = k + 1 + i by omega] at this)
    rcases hd : getDriveService (probes k).session a with ⟨log, r⟩
    rw [Nat.add_zero] at hs hq
    rw [hd] at hs
    simp only at hs
    subst hs
    have hreb : rebind lv a none = none := by cases lv <;> rfl
    simp only [scanAccounts, hd, hq, hreb, if_neg hfit]
    exact hrest

/-! ## Loading the bundle -/

theorem loadStorageAccounts_names (indexName : String) :
    ∀ (m : List (String × RawMessage)) (accs : List ServiceAccount),
      loadStorageAccounts indexName m = .returned accs →
      accs.map (fun a => a.Name) = (m.map Prod.fst).filter (fun k => k ≠ indexName) := by
  intro m
  induction m with
  | nil => intro accs h; simp [loadStorageAccounts] at h; simp [← h]
  | cons x rest ih =>
    obtain ⟨k, v⟩ := x
    intro accs h
    by_cases hk : k = indexName
    · simp only [loadStorageAccounts, hk, ne_eq, not_true_eq_false, if_false] at h
      simpa [hk] using ih accs h
    · simp only [loadStorageAccounts, ne_eq, hk, not_false_eq_true, if_true] at h
      cases hu : unmarshalServiceAccountPtr v ServiceAccount.zero with
      | none => simp [hu] at h
      | some temp =>
        cases hr : loadStorageAccounts indexName rest with
        | panicked r => simp [hu, hr] at h
        | returned l =>
          simp only [hu, hr, Outcome.returned.injEq] at h
          subst h
          simp [hk, ih l hr]

/-- C1 (the code departs from the claim): on a bundle of two ordinary credential
documents, none with a member "key", whose designated index key is "index",
`NewCloudDriveService` succeeds, the index identity is named "" and the storage
collection is named "index", "s1": it holds an identity named by
`IndexStoreKey`. -/
theorem C1_index_key_among_storage_accounts :
    ∃ c, (NewCloudDriveService "key.json" (.ok (.ok bundleTwoKeys)) (sessionOk 0)).2
          = .returned (.ok c) ∧
      c.IndexServiceAccount.Name = "" ∧
      c.StorageServiceAccount.map (fun a => a.Name) = ["index", "s1"] ∧
      ∃ a ∈ c.StorageServiceAccount, a.Name = bundleTwoKeys.IndexStoreKey := by
  refine ⟨_, rfl, ?_⟩
  decide

/-! ## Selection: the claims -/

/-- C2 (the code departs from the claim): with one loop variable for all
iterations, a scan of the pool `[a, b]` for 10 bytes in which `a` reports 100
free bytes and `b` reports 0 returns `b` without error, although the free
capacity reported for `b` is below the size. -/
theorem C2_selected_account_lacks_room :
    (getNextServiceAccount .shared poolAB 10 (probesOf quotasFirstFits) ⟨none⟩).out
        = .returned (.ok (storageAccount "b")) ∧
      poolAB.StorageServiceAccount[1]? = some (storageAccount "b") ∧
      (probesOf quotasFirstFits 1).about = .ok (some { Limit := 100, Usage := 100 }) ∧
      freeCapacity { Limit := 100, Usage := 100 } < 10 := by
  decide

/-- C3: once `getNextServiceAccount` has returned an identity without error,
every later call (whatever its pool, size and remote answers) returns that same
identity without error, issues no call at all and leaves the memo as it is. -/
theorem C3_memoized_selection_is_returned_again (lv : LoopVar) (c : CloudDriveService)
    (size : Int) (probes : Nat → Probe) (g : Globals) (a : ServiceAccount)
    (h : (getNextServiceAccount lv c size probes g).out = .returned (.ok a))
    (calls : List (CloudDriveService × Int × (Nat → Probe))) :
    (laterCalls lv (getNextServiceAccount lv c size probes g).globals calls).length
        = calls.length ∧
      ∀ r ∈ laterCalls lv (getNextServiceAccount lv c size probes g).globals calls,
        r.out = .returned (.ok a) ∧ r.log = [] ∧
        r.globals = (getNextServiceAccount lv c size probes g).globals := by
  constructor
  · generalize (getNextServiceAccount lv c size probes g).globals = g0
    induction calls generalizing g0 with
    | nil => rfl
    | cons x rest ih =>
      obtain ⟨c1, s1, p1⟩ := x
      simp [laterCalls, ih]
  · intro r hr
    have hm := getNextServiceAccount_ok_memoized lv c size probes g a h
    have := laterCalls_memo lv a _ hm calls r hr
    rw [this]
    exact ⟨rfl, rfl, rfl⟩

/-- C3 at a concrete input: the pool `[a, b]` selects `b` for 10 bytes, and a
later request for 1000000 bytes, far beyond the room of `b`, gets `b` again. -/
theorem C3_memoized_selection_is_returned_again_witness :
    (laterCalls .shared
        (getNextServiceAccount .shared poolAB 10 (probesOf quotasBothFit) ⟨none⟩).globals
        [(poolAB, 1000000, probesOf quotasBothFit)]).length = 1 ∧
      ∀ r ∈ laterCalls .shared
          (getNextServiceAccount .shared poolAB 10 (probesOf quotasBothFit) ⟨none⟩).globals
          [(poolAB, 1000000, probesOf quotasBothFit)],
        r.out = .returned (.ok (storageAccount "b")) ∧ r.log = [] ∧
        r.globals = (getNextServiceAccount .shared poolAB 10 (probesOf quotasBothFit) ⟨none⟩).globals :=
  C3_memoized_selection_is_returned_again .shared poolAB 10 (probesOf quotasBothFit) ⟨none⟩
    (storageAccount "b") (by decide) [(poolAB, 1000000, probesOf quotasBothFit)]

/-- C4 (the code departs from the claim): in the pool `[a, b]` where both
accounts report 100 free bytes, a request for 10 bytes returns `b`, under either
loop-variable rule, although `a` comes first in pool order and has room. -/
theorem C4_first_fitting_account_not_returned :
    (∀ lv, (getNextServiceAccount lv poolAB 10 (probesOf quotasBothFit) ⟨none⟩).out
        = .returned (.ok (storageAccount "b"))) ∧
      poolAB.StorageServiceAccount[0]? = some (storageAccount "a") ∧
      (probesOf quotasBothFit 0).about = .ok (some { Limit := 100, Usage := 0 }) ∧
      10 < freeCapacity { Limit := 100, Usage := 0 } ∧
      storageAccount "a" ≠ storageAccount "b" := by
  refine ⟨fun lv => ?_, ?_⟩
  · cases lv <;> decide
  · decide

/-- C5: with the memo unset, when every session and quota query of the scan
succeeds and no storage identity reports a free capacity above `size` (the empty
pool included), `getNextServiceAccount` returns no identity but the
storage-full error, and the memo stays unset. -/
theorem C5_no_fit_is_storage_full (lv : LoopVar) (c : CloudDriveService) (size : Int)
    (probes : Nat → Probe)
    (h : ∀ i a, c.StorageServiceAccount[i]? = some a → ∃ svc q,
      (getDriveService (probes i).session a).2 = .ok svc ∧
      (probes i).about = .ok (some q) ∧ ¬ size < freeCapacity q) :
    (getNextServiceAccount lv c size probes ⟨none⟩).out = .returned (.error .storageFull) ∧
      (getNextServiceAccount lv c size probes ⟨none⟩).globals = ⟨none⟩ := by
  have hs := scanAccounts_none_fit lv size probes c.StorageServiceAccount 0 (by
    intro i a hi
    simpa using h i a hi)
  rcases hr : scanAccounts lv size probes c.StorageServiceAccount 0 none with ⟨sel, log, e⟩
  rw [hr] at hs
  obtain ⟨h1, h2⟩ := hs
  simp only at h1 h2
  subst h1 h2
  simp [getNextServiceAccount, hr]

/-- C5 at a concrete input: the pool `[a, b]` with 100 and 0 free bytes has no
room for 1000 bytes. -/
theorem C5_no_fit_is_storage_full_witness :
    (getNextServiceAccount .shared poolAB 1000 (probesOf quotasFirstFits) ⟨none⟩).out
        = .returned (.error .storageFull) ∧
      (getNextServiceAccount .shared poolAB 1000 (probesOf quotasFirstFits) ⟨none⟩).globals
        = ⟨none⟩ :=
  C5_no_fit_is_storage_full .shared poolAB 1000 (probesOf quotasFirstFits) (by
    intro i a hi
    match i with
    | 0 => exact ⟨⟨0⟩, { Limit := 100, Usage := 0 }, by
        simp [poolAB] at hi; subst hi; decide⟩
    | 1 => exact ⟨⟨1⟩, { Limit := 100, Usage := 100 }, by
        simp [poolAB] at hi; subst hi; decide⟩
    | n + 2 => simp [poolAB] at hi)

/-! ## Selection under per-iteration loop variables -/

theorem freeCapacity_eq_sub (q : StorageQuota) (hl : 0 ≤ q.Limit) (hl2 : q.Limit < 2 ^ 63)
    (hu : 0 ≤ q.Usage) (hu2 : q.Usage < 2 ^ 63) :
    freeCapacity q = q.Limit - q.Usage := by
  unfold freeCapacity sub64
  have h1 : 0 ≤ q.Limit - q.Usage + 2 ^ 63 := by omega
  have h2 : q.Limit - q.Usage + 2 ^ 63 < 2 ^ 64 := by omega
  rw [Int.emod_eq_of_lt h1 h2]
  omega

theorem scanAccounts_perIteration_fit (size : Int) (probes : Nat → Probe) :
    ∀ (l : List ServiceAccount) (k : Nat) (sel : Option ServiceAccount) (a : ServiceAccount),
      (scanAccounts .perIteration size probes l k sel).1 = some a →
      sel = some a ∨ ∃ i q, l[i]? = some a ∧ (probes (k + i)).about = .ok (some q) ∧
        size < freeCapacity q := by
  intro l
  induction l with
  | nil => intro k sel a h; left; simpa [scanAccounts] using h
  | cons b rest ih =>
    intro k sel a h
    rcases hd : getDriveService (probes k).session b with ⟨log, r⟩
    cases r with
    | error e => left; simpa [scanAccounts, rebind, hd] using h
    | ok svc =>
      cases hq : (probes k).about with
      | error e => left; simpa [scanAccounts, rebind, hd, hq] using h
      | ok oq =>
        cases oq with
        | none => left; simpa [scanAccounts, rebind, hd, hq] using h
        | some q =>
          simp only [scanAccounts, rebind, hd, hq] at h
          rcases ih (k + 1) _ a h with h1 | ⟨i, q1, hi, hq1, hfit⟩
          · by_cases hf : size < freeCapacity q
            · rw [if_pos hf] at h1
              right
              refine ⟨0, q, ?_, by simpa using hq, hf⟩
              simpa using h1
            · rw [if_neg hf] at h1
              exact Or.inl h1
          · right
            refine ⟨i + 1, q1, by simpa using hi, ?_, hfit⟩
            rwa [show k + (i + 1) = k + 1 + i by omega]

/-- With one variable per iteration the selection fits: an identity returned by a
scan has reported a free capacity above the size. -/
theorem getNextServiceAccount_perIteration_fit (c : CloudDriveService) (size : Int)
    (probes : Nat → Probe) (a : ServiceAccount)
    (h : (getNextServiceAccount .perIteration c size probes ⟨none⟩).out = .returned (.ok a)) :
    ∃ i q, c.StorageServiceAccount[i]? = some a ∧ (probes i).about = .ok (some q) ∧
      size < freeCapacity q := by
  have hm := getNextServiceAccount_ok_memoized .perIteration c size probes ⟨none⟩ a h
  unfold getNextServiceAccount at hm h
  simp only at hm h
  rcases hs : scanAccounts .perIteration size probes c.StorageServiceAccount 0 none
    with ⟨sel, log, e⟩
  rw [hs] at hm h
  have hsel : sel = some a := by
    cases e with
    | failed e => simp at h
    | panicked r => simp at h
    | completed =>
      cases sel with
      | none => simp at h
      | some b => simpa using hm
  have := scanAccounts_perIteration_fit size probes c.StorageServiceAccount 0 none a
    (by rw [hs]; exact hsel)
  rcases this with h0 | ⟨i, q, hi, hq, hf⟩
  · cases h0
  · exact ⟨i, q, hi, by simpa using hq, hf⟩

/-! ## Cascading delete: the claims on a single entry -/

/-- C6 (the claim fails on the code): for the entry id "gone", whose metadata
fetch fails, `delete` returns `false` together with the fetch error; it does not
report success. -/
theorem C6_missing_entry_is_reported_as_failure :
    (delete poolAB decodeSample "gone" (.missing (.external "404 not found"))).out
        = .returned (false, some (.external "404 not found")) ∧
      (delete poolAB decodeSample "gone" (.missing (.external "404 not found"))).out
        ≠ .returned (true, none) := by
  decide

/-- C6 (amended): for every entry id whose initial metadata fetch fails, `delete`
is a no-op on the remote (its only call is the fetch, no delete call is issued)
and on the service, and it returns `false` together with the fetch error. -/
theorem C6_missing_entry_returns_fetch_error (c : CloudDriveService)
    (decode : String → Answer File) (id : String) (e : Err) :
    delete c decode id (.missing e)
      = { svc := c, log := [.filesGet id], out := .returned (false, some e) } := by
  simp [delete]

/-- C7 (the code departs from the claim): the placeholder "l1" names the owner
"ghost", which is not in the pool `[a, b]`. `delete` stops with a nil-pointer
panic: it returns no error value. Its only call is the metadata fetch, so no
delete call is issued for the index-tree entry. -/
theorem C7_unknown_owner_panics :
    decodeSample "descriptor obj3 of ghost" = .ok
        { Id := "obj3", Name := "three", MimeType := "text/plain", Description := "ghost" } ∧
      (∀ a ∈ poolAB.StorageServiceAccount, a.Name ≠ "ghost") ∧
      delete poolAB decodeSample "l1" (placeholder "l1" "descriptor obj3 of ghost")
        = { svc := poolAB, log := [.filesGet "l1"],
            out := .panicked "nil pointer dereference: s.service" } := by
  decide

/-- C10: for every non-directory entry whose annotation is non-empty and fails
to decode, `delete` returns `false` with the parse error wrapped, leaves the
service as it is, and its only call is the metadata fetch: neither a real-object
delete nor a delete of the index-tree entry is issued. -/
theorem C10_undecodable_annotation_is_decode_error (c : CloudDriveService)
    (decode : String → Answer File) (id : String) (file : File)
    (children : List (String × Entry)) (listErr : Option Err) (session : SessionAnswers)
    (objectDelete : Option Err) (e : Err)
    (hmime : file.MimeType ≠ driveFolderType) (hann : file.Description ≠ "")
    (hdec : decode file.Description = .error e) :
    delete c decode id (.found file children listErr session objectDelete)
        = { svc := c, log := [.filesGet id], out := .returned (false, some (.parseJson e)) } ∧
      (∀ a svc oid, Call.filesDelete a svc oid ∉
        (delete c decode id (.found file children listErr session objectDelete)).log) ∧
      (∀ eid, Call.fsFilesDelete eid ∉
        (delete c decode id (.found file children listErr session objectDelete)).log) := by
  have h : delete c decode id (.found file children listErr session objectDelete)
      = { svc := c, log := [.filesGet id], out := .returned (false, some (.parseJson e)) } := by
    simp [delete, hmime, hann, hdec]
  rw [h]
  simp

/-- C10 at a concrete input: the placeholder "l2" carries an annotation that is
not a descriptor. -/
theorem C10_undecodable_annotation_is_decode_error_witness :
    delete poolAB decodeSample "l2" (placeholder "l2" "not a descriptor")
        = { svc := poolAB, log := [.filesGet "l2"],
            out := .returned (false, some (.parseJson (.external "invalid character"))) } ∧
      (∀ a svc oid, Call.filesDelete a svc oid ∉
        (delete poolAB decodeSample "l2" (placeholder "l2" "not a descriptor")).log) ∧
      (∀ eid, Call.fsFilesDelete eid ∉
        (delete poolAB decodeSample "l2" (placeholder "l2" "not a descriptor")).log) :=
  C10_undecodable_annotation_is_decode_error poolAB decodeSample "l2"
    { Id := "l2", Name := "l2", MimeType := "text/plain", Description := "not a descriptor" }
    [] none (sessionOk 7) none (.external "invalid character")
    (by decide) (by decide) (by decide)

/-! ## The name cache -/

theorem find_name_eq (pool : List ServiceAccount) (name : String) (acc : ServiceAccount)
    (h : pool.find? (fun a => a.Name = name) = some acc) : acc.Name = name := by
  have := List.find?_some h
  simpa using this

theorem cacheSound_lookup (c : CloudDriveService) (hc : cacheSound c = true) (name : String)
    (a : ServiceAccount) (h : c.serviceAccountMap.lookup name = some a) :
    c.StorageServiceAccount.find? (fun acc => acc.Name = name) = some a := by
  unfold cacheSound at hc
  rw [List.all_eq_true] at hc
  generalize c.serviceAccountMap = m at hc h
  induction m with
  | nil => simp at h
  | cons p rest ih =>
    obtain ⟨k, v⟩ := p
    by_cases hk : name = k
    · subst hk
      simp only [List.lookup_cons, beq_self_eq_true, Option.some.injEq] at h
      subst h
      have := hc (name, v) (by simp)
      simpa using this
    · have hne : (name == k) = false := by simpa using hk
      simp only [List.lookup_cons, hne] at h
      exact ih (fun x hx => hc x (List.mem_cons_of_mem _ hx)) h

/-- Under a sound cache `getServiceAccountByName` gives what a scan of the pool
gives, and the service afterwards has the same accounts and a sound cache. -/
theorem getServiceAccountByName_sound (c : CloudDriveService) (hc : cacheSound c = true)
    (name : String) :
    (getServiceAccountByName c name).1
        = c.StorageServiceAccount.find? (fun acc => acc.Name = name) ∧
      cacheSound (getServiceAccountByName c name).2 = true ∧
      (getServiceAccountByName c name).2.StorageServiceAccount = c.StorageServiceAccount ∧
      (getServiceAccountByName c name).2.IndexServiceAccount = c.IndexServiceAccount := by
  unfold getServiceAccountByName
  cases hl : c.serviceAccountMap.lookup name with
  | some a =>
    exact ⟨(cacheSound_lookup c hc name a hl).symm, hc, rfl, rfl⟩
  | none =>
    cases hf : c.StorageServiceAccount.find? (fun acc => acc.Name = name) with
    | none => exact ⟨rfl, hc, rfl, rfl⟩
    | some acc =>
      refine ⟨rfl, ?_, rfl, rfl⟩
      have hn := find_name_eq _ _ _ hf
      unfold cacheSound at hc ⊢
      simp only [List.all_cons, Bool.and_eq_true]
      refine ⟨?_, hc⟩
      simp [hn, hf]

/-! ## Reading logs -/

theorem objectDeletes_append (l1 l2 : List Call) :
    objectDeletes (l1 ++ l2) = objectDeletes l1 ++ objectDeletes l2 := by
  simp [objectDeletes, List.filterMap_append]

theorem indexDeletes_append (l1 l2 : List Call) :
    indexDeletes (l1 ++ l2) = indexDeletes l1 ++ indexDeletes l2 := by
  simp [indexDeletes, List.filterMap_append]

theorem getDriveService_log (ans : SessionAnswers) (s : ServiceAccount) :
    objectDeletes (getDriveService ans s).1 = [] ∧ indexDeletes (getDriveService ans s).1 = [] := by
  unfold getDriveService getHttpClientWith
  cases s.service with
  | some svc => simp [objectDeletes, indexDeletes]
  | none =>
    cases s.client with
    | some cl => simp [objectDeletes, indexDeletes]
    | none =>
      cases ans.client with
      | ok cl => simp [objectDeletes, indexDeletes]
      | error e => simp [objectDeletes, indexDeletes]

/-! ## The name cache does not change what `delete` does -/

theorem deleteFile_agree (c c' : CloudDriveService) (hc : cacheSound c = true)
    (hc' : cacheSound c' = true) (hi : c.IndexServiceAccount = c'.IndexServiceAccount)
    (hp : c.StorageServiceAccount = c'.StorageServiceAccount) (session : SessionAnswers)
    (objectDelete : Option Err) (file : File) :
    (deleteFile c session objectDelete file).2 = (deleteFile c' session objectDelete file).2 ∧
      cacheSound (deleteFile c session objectDelete file).1 = true ∧
      (deleteFile c session objectDelete file).1.StorageServiceAccount
        = c.StorageServiceAccount ∧
      (deleteFile c session objectDelete file).1.IndexServiceAccount
        = c.IndexServiceAccount := by
  unfold deleteFile
  by_cases hg : file.Description = "" ∨ file.MimeType = driveFolderType
  · simp only [if_pos hg, ← hi]
    rcases getDriveService session c.IndexServiceAccount with ⟨log, r⟩
    cases r with
    | ok svc => exact ⟨rfl, hc, rfl, rfl⟩
    | error e => exact ⟨rfl, hc, rfl, rfl⟩
  · simp only [if_neg hg]
    obtain ⟨h1, h2, h3, h4⟩ := getServiceAccountByName_sound c hc file.Description
    obtain ⟨h1', -, -, -⟩ := getServiceAccountByName_sound c' hc' file.Description
    rw [← hp] at h1'
    rcases hq : getServiceAccountByName c file.Description with ⟨o, c1⟩
    rcases hq' : getServiceAccountByName c' file.Description with ⟨o', c1'⟩
    rw [hq] at h1 h2 h3 h4
    rw [hq'] at h1'
    simp only at h1 h2 h3 h4 h1'
    have ho : o' = o := by rw [h1, h1']
    subst ho
    cases o' with
    | none => exact ⟨rfl, h2, h3, h4⟩
    | some a =>
      simp only
      rcases getDriveService session a with ⟨log, r⟩
      cases r with
      | ok svc => exact ⟨rfl, h2, h3, h4⟩
      | error e => exact ⟨rfl, h2, h3, h4⟩

mutual
theorem delete_agree (decode : String → Answer File) :
    ∀ (t : Entry) (c c' : CloudDriveService) (id : String),
      cacheSound c = true → cacheSound c' = true →
      c.IndexServiceAccount = c'.IndexServiceAccount →
      c.StorageServiceAccount = c'.StorageServiceAccount →
      (delete c decode id t).log = (delete c' decode id t).log ∧
        (delete c decode id t).out = (delete c' decode id t).out ∧
        cacheSound (delete c decode id t).svc = true ∧
        (delete c decode id t).svc.StorageServiceAccount = c.StorageServiceAccount ∧
        (delete c decode id t).svc.IndexServiceAccount = c.IndexServiceAccount
  | .missing e, c, c', id, hc, _, _, _ => by
    simp [delete, hc]
  | .found file children listErr session objectDelete, c, c', id, hc, hc', hi, hp => by
    simp only [delete]
    by_cases hg : file.MimeType = driveFolderType ∨ file.Description = ""
    · simp only [if_pos hg]
      obtain ⟨h1, h2, h3, h4⟩ := deleteChildren_agree decode children c c' hc hc' hi hp
      rcases hq : deleteChildren c decode children with ⟨c1, log, r⟩
      rcases hq' : deleteChildren c' decode children with ⟨c1', log', r'⟩
      rw [hq] at h1 h2 h3 h4
      rw [hq'] at h1
      simp only [Prod.mk.injEq] at h1 h2 h3 h4
      obtain ⟨hl, hr⟩ := h1
      subst hl hr
      cases r with
      | some reason => exact ⟨rfl, rfl, h2, h3, h4⟩
      | none =>
        cases listErr with
        | some e => exact ⟨rfl, rfl, h2, h3, h4⟩
        | none => exact ⟨rfl, rfl, h2, h3, h4⟩
    · simp only [if_neg hg]
      cases decode file.Description with
      | error e => exact ⟨rfl, rfl, hc, rfl, rfl⟩
      | ok actualFile =>
        simp only
        obtain ⟨h1, h2, h3, h4⟩ :=
          deleteFile_agree c c' hc hc' hi hp session objectDelete actualFile
        rcases hq : deleteFile c session objectDelete actualFile with ⟨c1, log, r⟩
        rcases hq' : deleteFile c' session objectDelete actualFile with ⟨c1', log', r'⟩
        rw [hq] at h1 h2 h3 h4
        rw [hq'] at h1
        simp only [Prod.mk.injEq] at h1 h2 h3 h4
        obtain ⟨hl, hr⟩ := h1
        subst hl hr
        cases r with
        | panicked reason => exact ⟨rfl, rfl, h2, h3, h4⟩
        | returned oe =>
          cases oe with
          | some e => exact ⟨rfl, rfl, h2, h3, h4⟩
          | none => exact ⟨rfl, rfl, h2, h3, h4⟩
theorem deleteChildren_agree (decode : String → Answer File) :
    ∀ (l : List (String × Entry)) (c c' : CloudDriveService),
      cacheSound c = true → cacheSound c' = true →
      c.IndexServiceAccount = c'.IndexServiceAccount →
      c.StorageServiceAccount = c'.StorageServiceAccount →
      (deleteChildren c decode l).2 = (deleteChildren c' decode l).2 ∧
        cacheSound (deleteChildren c decode l).1 = true ∧
        (deleteChildren c decode l).1.StorageServiceAccount = c.StorageServiceAccount ∧
        (deleteChildren c decode l).1.IndexServiceAccount = c.IndexServiceAccount
  | [], c, c', hc, _, _, _ => by
    simp [deleteChildren, hc]
  | (childId, child) :: rest, c, c', hc, hc', hi, hp => by
    obtain ⟨h1, h2, h3, h4, h5⟩ := delete_agree decode child c c' childId hc hc' hi hp
    obtain ⟨-, -, h3', h4', h5'⟩ := delete_agree decode child c' c childId hc' hc hi.symm hp.symm
    simp only [deleteChildren]
    rcases hq : delete c decode childId child with ⟨c1, log, r⟩
    rcases hq' : delete c' decode childId child with ⟨c1', log', r'⟩
    rw [hq] at h1 h2 h3 h4 h5
    rw [hq'] at h1 h2 h3' h4' h5'
    simp only at h1 h2 h3 h4 h5 h3' h4' h5'
    subst h1 h2
    cases r with
    | panicked reason => exact ⟨rfl, h3, h4, h5⟩
    | returned pr =>
      simp only
      obtain ⟨g1, g2, g3, g4⟩ := deleteChildren_agree decode rest c1 c1' h3 h3'
        (by rw [h5, h5', hi]) (by rw [h4, h4', hp])
      refine ⟨?_, g2, by rw [g3, h4], by rw [g4, h5]⟩
      rw [Prod.ext_iff] at g1
      obtain ⟨ga, gb⟩ := g1
      rw [ga, gb]
end

/-! ## Recursive delete of a well-formed tree -/

theorem deleteFile_owner (c : CloudDriveService) (hc : cacheSound c = true)
    (session : SessionAnswers) (objectDelete : Option Err) (d : File) (owner : ServiceAccount)
    (hd1 : d.Description ≠ "") (hd2 : d.MimeType ≠ driveFolderType)
    (hf : c.StorageServiceAccount.find? (fun acc => acc.Name = d.Description) = some owner) :
    (deleteFile c session objectDelete d).2 =
      match getDriveService session owner with
      | (log, .error e) => (log, .returned (some e))
      | (log, .ok svc) => (log ++ [.filesDelete owner svc d.Id], .returned objectDelete) := by
  unfold deleteFile
  have hg : ¬ (d.Description = "" ∨ d.MimeType = driveFolderType) := by
    rintro (h | h)
    · exact hd1 h
    · exact hd2 h
  simp only [if_neg hg]
  obtain ⟨h1, -, -, -⟩ := getServiceAccountByName_sound c hc d.Description
  rcases hq : getServiceAccountByName c d.Description with ⟨o, c1⟩
  rw [hq] at h1
  simp only at h1
  rw [hf] at h1
  subst h1
  simp only
  rcases getDriveService session owner with ⟨log, r⟩
  cases r <;> rfl

mutual
theorem entryIds_length :
    ∀ (t : Entry), (entryIds t).length = leafCount t + dirCount t
  | .missing e => by simp [entryIds, leafCount, dirCount]
  | .found file children listErr session objectDelete => by
    by_cases hm : file.MimeType = driveFolderType
    · simp only [entryIds, leafCount, dirCount, if_pos hm, List.length_append,
        List.length_singleton, entryIdsChildren_length children]
      omega
    · simp [entryIds, leafCount, dirCount, if_neg hm]
theorem entryIdsChildren_length :
    ∀ (l : List (String × Entry)),
      (entryIdsChildren l).length = leafCountChildren l + dirCountChildren l
  | [] => by simp [entryIdsChildren, leafCountChildren, dirCountChildren]
  | (_, child) :: rest => by
    simp only [entryIdsChildren, leafCountChildren, dirCountChildren, List.length_append,
      entryIds_length child, entryIdsChildren_length rest]
    omega
end

mutual
theorem leafTargets_length (pool : List ServiceAccount) (decode : String → Answer File) :
    ∀ (t : Entry), wellFormedTree pool decode t = true →
      (leafTargets pool decode t).length = leafCount t
  | .missing e, hw => by simp [wellFormedTree] at hw
  | .found file children listErr session objectDelete, hw => by
    by_cases hm : file.MimeType = driveFolderType
    · simp only [wellFormedTree, if_pos hm, Bool.and_eq_true] at hw
      simp only [leafTargets, leafCount, if_pos hm]
      exact leafTargetsChildren_length pool decode children hw.2
    · simp only [wellFormedTree, if_neg hm, Bool.and_eq_true] at hw
      simp only [leafTargets, leafCount, if_neg hm]
      obtain ⟨-, hw⟩ := hw
      cases hd : decode file.Description with
      | error e => simp [hd] at hw
      | ok d =>
        simp only [hd, Bool.and_eq_true] at hw ⊢
        obtain ⟨-, hw⟩ := hw
        cases hf : pool.find? (fun acc => acc.Name = d.Description) with
        | none => simp [hf] at hw
        | some owner => simp
theorem leafTargetsChildren_length (pool : List ServiceAccount)
    (decode : String → Answer File) :
    ∀ (l : List (String × Entry)), wellFormedChildren pool decode l = true →
      (leafTargetsChildren pool decode l).length = leafCountChildren l
  | [], _ => by simp [leafTargetsChildren, leafCountChildren]
  | (_, child) :: rest, hw => by
    simp only [wellFormedChildren, Bool.and_eq_true] at hw
    simp only [leafTargetsChildren, leafCountChildren, List.length_append,
      leafTargets_length pool decode child hw.1, leafTargetsChildren_length pool decode rest hw.2]
end

mutual
theorem delete_wellFormed (decode : String → Answer File) :
    ∀ (t : Entry) (c : CloudDriveService) (id : String),
      cacheSound c = true → wellFormedTree c.StorageServiceAccount decode t = true →
      (delete c decode id t).out = .returned (true, none) ∧
        objectDeletes (delete c decode id t).log
          = leafTargets c.StorageServiceAccount decode t ∧
        indexDeletes (delete c decode id t).log = entryIds t
  | .missing e, c, id, _, hw => by simp [wellFormedTree] at hw
  | .found file children listErr session objectDelete, c, id, hc, hw => by
    by_cases hm : file.MimeType = driveFolderType
    · simp only [wellFormedTree, if_pos hm, Bool.and_eq_true] at hw
      obtain ⟨hl, hw⟩ := hw
      obtain ⟨h1, h2, h3⟩ := deleteChildren_wellFormed decode children c hc hw
      have hg : file.MimeType = driveFolderType ∨ file.Description = "" := Or.inl hm
      simp only [delete, if_pos hg, leafTargets, entryIds, if_pos hm]
      rcases hq : deleteChildren c decode children with ⟨c1, log, r⟩
      rw [hq] at h1 h2 h3
      simp only at h1 h2 h3
      subst h1
      cases listErr with
      | some e => simp at hl
      | none =>
        simp only
        refine ⟨trivial, ?_, ?_⟩
        · rw [objectDeletes_append, objectDeletes_append, h2]
          simp [objectDeletes]
        · rw [indexDeletes_append, indexDeletes_append, h3]
          simp [indexDeletes]
    · simp only [wellFormedTree, if_neg hm, Bool.and_eq_true, decide_eq_true_eq] at hw
      obtain ⟨⟨hann, -⟩, hw⟩ := hw
      have hg : ¬ (file.MimeType = driveFolderType ∨ file.Description = "") := by
        rintro (h | h)
        · exact hm h
        · exact hann h
      simp only [delete, if_neg hg, leafTargets, entryIds, if_neg hm]
      cases hd : decode file.Description with
      | error e => simp [hd] at hw
      | ok d =>
        simp only [hd, Bool.and_eq_true, decide_eq_true_eq] at hw ⊢
        obtain ⟨⟨hd1, hd2⟩, hw⟩ := hw
        cases hf : c.StorageServiceAccount.find? (fun acc => acc.Name = d.Description) with
        | none => simp [hf] at hw
        | some owner =>
          simp only [hf, Bool.and_eq_true] at hw ⊢
          obtain ⟨hod, hs⟩ := hw
          have hfile := deleteFile_owner c hc session objectDelete d owner hd1 hd2 hf
          have hlog := (getDriveService_log session owner)
          rcases hq : deleteFile c session objectDelete d with ⟨c1, log, r⟩
          rcases hgs : getDriveService session owner with ⟨slog, sr⟩
          rw [hq, hgs] at hfile
          rw [hgs] at hs hlog
          cases sr with
          | error e => simp at hs
          | ok svc =>
            cases objectDelete with
            | some e => simp at hod
            | none =>
              simp only [Prod.mk.injEq] at hfile
              obtain ⟨hl, hr⟩ := hfile
              subst hl hr
              simp only at hlog ⊢
              refine ⟨trivial, ?_, ?_⟩
              · rw [objectDeletes_append, objectDeletes_append, objectDeletes_append, hlog.1]
                simp [objectDeletes]
              · rw [indexDeletes_append, indexDeletes_append, indexDeletes_append, hlog.2]
                simp [indexDeletes]
theorem deleteChildren_wellFormed (decode : String → Answer File) :
    ∀ (l : List (String × Entry)) (c : CloudDriveService),
      cacheSound c = true → wellFormedChildren c.StorageServiceAccount decode l = true →
      (deleteChildren c decode l).2.2 = none ∧
        objectDeletes (deleteChildren c decode l).2.1
          = leafTargetsChildren c.StorageServiceAccount decode l ∧
        indexDeletes (deleteChildren c decode l).2.1 = entryIdsChildren l
  | [], c, _, _ => by
    simp [deleteChildren, leafTargetsChildren, entryIdsChildren, objectDeletes, indexDeletes]
  | (childId, child) :: rest, c, hc, hw => by
    simp only [wellFormedChildren, Bool.and_eq_true] at hw
    obtain ⟨h1, h2, h3⟩ := delete_wellFormed decode child c childId hc hw.1
    obtain ⟨-, -, k1, k2, -⟩ := delete_agree decode child c c childId hc hc rfl rfl
    simp only [deleteChildren, leafTargetsChildren, entryIdsChildren]
    rcases hq : delete c decode childId child with ⟨c1, log, r⟩
    rw [hq] at h1 h2 h3 k1 k2
    simp only at h1 h2 h3 k1 k2
    subst h1
    simp only
    obtain ⟨g1, g2, g3⟩ := deleteChildren_wellFormed decode rest c1 k1 (by rw [k2]; exact hw.2)
    rw [k2] at g2
    refine ⟨g1, ?_, ?_⟩
    · rw [objectDeletes_append, h2, g2]
    · rw [indexDeletes_append, h3, g3]
end

/-- C8 (the claim fails on the code): the directory "root" has the single
placeholder "l4", whose annotation records the object "obj4", of folder type,
owned by `a`, an account of the pool. Every remote call succeeds and `delete`
returns success, but the one real-object delete call is issued on the index
account, not on the recorded owner `a`. -/
theorem C8_folder_typed_object_deleted_on_index_account :
    decodeSample "descriptor folder obj4 of a" = .ok
        { Id := "obj4", Name := "four", MimeType := driveFolderType, Description := "a" } ∧
      poolAB.StorageServiceAccount.find? (fun acc => acc.Name = "a")
        = some (storageAccount "a") ∧
      (delete poolAB decodeSample "root" treeFolderTypedLeaf).out = .returned (true, none) ∧
      objectDeletes (delete poolAB decodeSample "root" treeFolderTypedLeaf).log
        = [(poolAB.IndexServiceAccount, "obj4")] ∧
      poolAB.IndexServiceAccount ≠ storageAccount "a" := by
  decide

/-- C8 (amended): for every finite tree of D directories and N placeholder
leaves, each annotation decoding to a descriptor that is not folder-typed and
names by a non-empty name an owner of the pool, when every remote call succeeds
(and the name cache is sound, as it is from `NewCloudDriveService` on), `delete`
of the root returns success; its real-object delete calls are exactly, leaf by
leaf, the recorded object id on the account of the recorded owner, N calls; its
index-entry delete calls are exactly the entries of the tree, children before
their directory, N + D calls. -/
theorem C8_recursive_delete_complete (c : CloudDriveService) (decode : String → Answer File)
    (id : String) (t : Entry) (hc : cacheSound c = true)
    (hw : wellFormedTree c.StorageServiceAccount decode t = true) :
    (delete c decode id t).out = .returned (true, none) ∧
      objectDeletes (delete c decode id t).log
        = leafTargets c.StorageServiceAccount decode t ∧
      (objectDeletes (delete c decode id t).log).length = leafCount t ∧
      indexDeletes (delete c decode id t).log = entryIds t ∧
      (indexDeletes (delete c decode id t).log).length = leafCount t + dirCount t := by
  obtain ⟨h1, h2, h3⟩ := delete_wellFormed decode t c id hc hw
  refine ⟨h1, h2, ?_, h3, ?_⟩
  · rw [h2]
    exact leafTargets_length _ decode t hw
  · rw [h3]
    exact entryIds_length t

/-- C8 (amended) at a concrete input: a root with two leaves and a sub-directory
with a third leaf, N = 3 and D = 2. -/
theorem C8_recursive_delete_complete_witness :
    (delete poolAB decodeSample "root" treeSample).out = .returned (true, none) ∧
      objectDeletes (delete poolAB decodeSample "root" treeSample).log
        = leafTargets poolAB.StorageServiceAccount decodeSample treeSample ∧
      (objectDeletes (delete poolAB decodeSample "root" treeSample).log).length
        = leafCount treeSample ∧
      indexDeletes (delete poolAB decodeSample "root" treeSample).log = entryIds treeSample ∧
      (indexDeletes (delete poolAB decodeSample "root" treeSample).log).length
        = leafCount treeSample + dirCount treeSample :=
  C8_recursive_delete_complete poolAB decodeSample "root" treeSample (by decide) (by decide)

/-! ## A directory whose children do not crash -/

theorem deleteChildren_returned (decode : String → Answer File) :
    ∀ (l : List (String × Entry)) (c0 c : CloudDriveService),
      cacheSound c0 = true → cacheSound c = true →
      c.IndexServiceAccount = c0.IndexServiceAccount →
      c.StorageServiceAccount = c0.StorageServiceAccount →
      (∀ p ∈ l, ∃ r, (delete c0 decode p.1 p.2).out = .returned r) →
      (deleteChildren c decode l).2 = (childLogs c0 decode l, none) := by
  intro l
  induction l with
  | nil => intro c0 c _ _ _ _ _; simp [deleteChildren, childLogs]
  | cons x rest ih =>
    obtain ⟨childId, child⟩ := x
    intro c0 c hc0 hc hi hp hall
    obtain ⟨r, hr⟩ := hall (childId, child) (by simp)
    obtain ⟨h1, h2, h3, h4, h5⟩ := delete_agree decode child c c0 childId hc hc0 hi hp
    simp only at hr
    rw [← h2] at hr
    simp only [deleteChildren, childLogs]
    rcases hq : delete c decode childId child with ⟨c1, log, out⟩
    rw [hq] at h1 h3 h4 h5 hr
    simp only at h1 h3 h4 h5 hr
    subst hr
    simp only
    have := ih c0 c1 hc0 h3 (by rw [h5, hi]) (by rw [h4, hp])
      (fun p hp' => hall p (List.mem_cons_of_mem _ hp'))
    rw [Prod.ext_iff] at this
    obtain ⟨ga, gb⟩ := this
    simp only at ga gb
    rw [ga, gb, h1]

theorem childLogs_mem (c : CloudDriveService) (decode : String → Answer File) :
    ∀ (l : List (String × Entry)) (p : String × Entry), p ∈ l →
      ∀ call ∈ (delete c decode p.1 p.2).log, call ∈ childLogs c decode l := by
  intro l
  induction l with
  | nil => intro p hp; simp at hp
  | cons x rest ih =>
    obtain ⟨childId, child⟩ := x
    intro p hp call hcall
    simp only [childLogs, List.mem_append]
    rcases List.mem_cons.mp hp with h | h
    · left
      rw [h] at hcall
      exact hcall
    · right
      exact ih p h call hcall

theorem deleteFile_success_log (c : CloudDriveService) (session : SessionAnswers)
    (objectDelete : Option Err) (file : File)
    (h : (deleteFile c session objectDelete file).2.2 = .returned none) :
    ∃ account svc,
      Call.filesDelete account svc file.Id ∈ (deleteFile c session objectDelete file).2.1 := by
  unfold deleteFile at h ⊢
  by_cases hg : file.Description = "" ∨ file.MimeType = driveFolderType
  · simp only [if_pos hg] at h ⊢
    generalize getDriveService session c.IndexServiceAccount = x at h ⊢
    obtain ⟨log, r⟩ := x
    cases r with
    | error e => simp at h
    | ok svc => exact ⟨c.IndexServiceAccount, svc, by simp⟩
  · simp only [if_neg hg] at h ⊢
    generalize getServiceAccountByName c file.Description = y at h ⊢
    obtain ⟨o, c1⟩ := y
    cases o with
    | none => simp at h
    | some a =>
      simp only at h ⊢
      generalize getDriveService session a = x at h ⊢
      obtain ⟨log, r⟩ := x
      cases r with
      | error e => simp at h
      | ok svc => exact ⟨a, svc, by simp⟩

/-- A placeholder whose `delete` returns success has had its real object deleted
(the object id recorded in its annotation) and its index-tree entry deleted. -/
theorem placeholder_success_log (c : CloudDriveService) (decode : String → Answer File)
    (id : String) (t : Entry) (hp : isPlaceholder t = true)
    (h : (delete c decode id t).out = .returned (true, none)) :
    ∃ file d account svc, entryFile t = some file ∧ decode file.Description = .ok d ∧
      Call.filesDelete account svc d.Id ∈ (delete c decode id t).log ∧
      Call.fsFilesDelete file.Id ∈ (delete c decode id t).log := by
  cases t with
  | missing e => simp [isPlaceholder] at hp
  | found file children listErr session objectDelete =>
    simp only [isPlaceholder, decide_eq_true_eq] at hp
    have hg : ¬ (file.MimeType = driveFolderType ∨ file.Description = "") := by
      rintro (h' | h')
      · exact hp.1 h'
      · exact hp.2 h'
    simp only [delete, if_neg hg] at h ⊢
    cases hd : decode file.Description with
    | error e => simp [hd] at h
    | ok d =>
      simp only [hd] at h ⊢
      have hs := deleteFile_success_log c session objectDelete d
      rcases hq : deleteFile c session objectDelete d with ⟨c1, log, r⟩
      rw [hq] at h hs
      simp only at h hs
      cases r with
      | panicked reason => simp at h
      | returned oe =>
        cases oe with
        | some e => simp at h
        | none =>
          obtain ⟨account, svc, hmem⟩ := hs rfl
          refine ⟨file, d, account, svc, rfl, hd, ?_, ?_⟩
          · simp [hmem]
          · simp

/-- C9 (the claim fails on the code): in the directory "root" of three
placeholders the delete of "l2" alone fails (its annotation does not decode),
yet `delete` of the directory returns plain success: `true` and no error. -/
theorem C9_failed_child_yields_plain_success :
    (delete poolAB decodeSample "l1" (placeholder "l1" "descriptor obj1 of a")).out
        = .returned (true, none) ∧
      (delete poolAB decodeSample "l2" (placeholder "l2" "not a descriptor")).out
        = .returned (false, some (.parseJson (.external "invalid character"))) ∧
      (delete poolAB decodeSample "l3" (placeholder "l3" "descriptor obj2 of b")).out
        = .returned (true, none) ∧
      (delete poolAB decodeSample "root" treeOneBadLeaf).out = .returned (true, none) := by
  decide

/-- C9 (amended): for every directory whose listing succeeds, if the delete of
exactly one child returns a failure and every other child is a placeholder whose
delete returns success, then `delete` of the directory
issues, in listing order, exactly the calls of each child on its own, among them
the real-object delete and the index-entry delete of every other child, then
deletes the entry of the directory, and returns plain success (`true`, no
error): the failed child is not reported. -/
theorem C9_failed_child_is_not_reported (c : CloudDriveService)
    (decode : String → Answer File) (id : String) (dir : File)
    (before after : List (String × Entry)) (badId : String) (bad : Entry)
    (session : SessionAnswers) (objectDelete : Option Err) (e : Err)
    (hc : cacheSound c = true) (hdir : dir.MimeType = driveFolderType)
    (hothers : ∀ p ∈ before ++ after, isPlaceholder p.2 = true ∧
      (delete c decode p.1 p.2).out = .returned (true, none))
    (hfail : (delete c decode badId bad).out = .returned (false, some e)) :
    (delete c decode id
        (.found dir (before ++ (badId, bad) :: after) none session objectDelete)).out
        = .returned (true, none) ∧
      (delete c decode id
        (.found dir (before ++ (badId, bad) :: after) none session objectDelete)).log
        = [.filesGet id, .list dir.Id] ++ childLogs c decode (before ++ (badId, bad) :: after)
            ++ [.fsFilesDelete dir.Id] ∧
      ∀ p ∈ before ++ after, ∃ file d account svc,
        entryFile p.2 = some file ∧ decode file.Description = .ok d ∧
        Call.filesDelete account svc d.Id ∈ (delete c decode id
          (.found dir (before ++ (badId, bad) :: after) none session objectDelete)).log ∧
        Call.fsFilesDelete file.Id ∈ (delete c decode id
          (.found dir (before ++ (badId, bad) :: after) none session objectDelete)).log := by
  have hall : ∀ p ∈ before ++ (badId, bad) :: after,
      ∃ r, (delete c decode p.1 p.2).out = .returned r := by
    intro p hp
    rcases List.mem_append.mp hp with h | h
    · exact ⟨_, (hothers p (List.mem_append_left _ h)).2⟩
    · rcases List.mem_cons.mp h with h | h
      · rw [h]
        exact ⟨_, hfail⟩
      · exact ⟨_, (hothers p (List.mem_append_right _ h)).2⟩
  have hch := deleteChildren_returned decode (before ++ (badId, bad) :: after) c c hc hc rfl rfl
    hall
  have hg : dir.MimeType = driveFolderType ∨ dir.Description = "" := Or.inl hdir
  have hrun : (delete c decode id
        (.found dir (before ++ (badId, bad) :: after) none session objectDelete)).out
        = .returned (true, none) ∧
      (delete c decode id
        (.found dir (before ++ (badId, bad) :: after) none session objectDelete)).log
        = [.filesGet id, .list dir.Id] ++ childLogs c decode (before ++ (badId, bad) :: after)
            ++ [.fsFilesDelete dir.Id] := by
    simp only [delete, if_pos hg]
    rcases hq : deleteChildren c decode (before ++ (badId, bad) :: after) with ⟨c1, log, r⟩
    rw [hq] at hch
    simp only [Prod.mk.injEq] at hch
    obtain ⟨hl, hr⟩ := hch
    subst hl hr
    exact ⟨rfl, rfl⟩
  refine ⟨hrun.1, hrun.2, ?_⟩
  intro p hp
  obtain ⟨hph, hok⟩ := hothers p hp
  obtain ⟨file, d, account, svc, hf, hd, hm1, hm2⟩ :=
    placeholder_success_log c decode p.1 p.2 hph hok
  have hpm : p ∈ before ++ (badId, bad) :: after := by
    rcases List.mem_append.mp hp with h | h
    · exact List.mem_append_left _ h
    · exact List.mem_append_right _ (List.mem_cons_of_mem _ h)
  refine ⟨file, d, account, svc, hf, hd, ?_, ?_⟩
  · rw [hrun.2]
    have := childLogs_mem c decode _ p hpm _ hm1
    simp [this]
  · rw [hrun.2]
    have := childLogs_mem c decode _ p hpm _ hm2
    simp [this]

/-- C9 (amended) at a concrete input: the directory "root" lists "l1", "l2" and
"l3"; the annotation of "l2" does not decode. -/
theorem C9_failed_child_is_not_reported_witness :
    (delete poolAB decodeSample "root"
        (.found { Id := "root", Name := "root", MimeType := driveFolderType, Description := "" }
          ([("l1", placeholder "l1" "descriptor obj1 of a")]
            ++ ("l2", placeholder "l2" "not a descriptor")
              :: [("l3", placeholder "l3" "descriptor obj2 of b")])
          none (sessionOk 0) none)).out = .returned (true, none) ∧
      (delete poolAB decodeSample "root"
        (.found { Id := "root", Name := "root", MimeType := driveFolderType, Description := "" }
          ([("l1", placeholder "l1" "descriptor obj1 of a")]
            ++ ("l2", placeholder "l2" "not a descriptor")
              :: [("l3", placeholder "l3" "descriptor obj2 of b")])
          none (sessionOk 0) none)).log
        = [.filesGet "root", .list "root"]
            ++ childLogs poolAB decodeSample
              ([("l1", placeholder "l1" "descriptor obj1 of a")]
                ++ ("l2", placeholder "l2" "not a descriptor")
                  :: [("l3", placeholder "l3" "descriptor obj2 of b")])
            ++ [.fsFilesDelete "root"] :=
  have h := C9_failed_child_is_not_reported poolAB decodeSample "root"
    { Id := "root", Name := "root", MimeType := driveFolderType, Description := "" }
    [("l1", placeholder "l1" "descriptor obj1 of a")]
    [("l3", placeholder "l3" "descriptor obj2 of b")]
    "l2" (placeholder "l2" "not a descriptor") (sessionOk 0) none
    (.parseJson (.external "invalid character")) (by decide) (by decide)
    (by
      intro p hp
      simp only [List.singleton_append, List.mem_cons, List.mem_singleton, List.not_mem_nil,
        or_false] at hp
      rcases hp with h | h <;> subst h <;> decide)
    (by decide)
  ⟨h.1, h.2.1⟩

/-- The service built by `NewCloudDriveService` has a sound (empty) name cache. -/
theorem NewCloudDriveService_cacheSound (keyFile : String) (file : Answer (Answer MasterKey))
    (ans : SessionAnswers) (c : CloudDriveService)
    (h : (NewCloudDriveService keyFile file ans).2 = .returned (.ok c)) :
    cacheSound c = true := by
  unfold NewCloudDriveService at h
  by_cases hk : keyFile = ""
  · simp [hk] at h
  · simp only [if_neg hk] at h
    cases file with
    | error e => simp at h
    | ok parsed =>
      cases parsed with
      | error e => simp at h
      | ok masterKey =>
        simp only at h
        generalize unmarshalServiceAccount _ _ = u at h
        obtain ⟨index, oe⟩ := u
        cases oe with
        | some e => simp at h
        | none =>
          simp only at h
          generalize loadStorageAccounts _ _ = l at h
          cases l with
          | panicked r => simp at h
          | returned accs =>
            simp only [Outcome.returned.injEq, Answer.ok.injEq] at h
            subst h
            rfl

/-! ## Session handles -/

/-- An identity without handle and without client builds its session anew on
every call: the second call issues the two construction calls again. -/
theorem getDriveService_builds_again (ans1 ans2 : SessionAnswers) (s : ServiceAccount)
    (hs : s.service = none) (hcl : s.client = none) :
    (getDriveServiceRun ans1 s).receiver.service = none ∧
      ∃ cl, (getDriveServiceRun ans2 (getDriveServiceRun ans1 s).receiver).log
        = Call.getServiceAccountClient s.ServiceAccountJson :: cl := by
  refine ⟨hs, ?_⟩
  simp only [getDriveServiceRun, getDriveService, getHttpClientWith, hs, hcl]
  cases ans2.client with
  | ok c => exact ⟨_, rfl⟩
  | error e => exact ⟨_, rfl⟩

/-- C11 (the code departs from the claim): the identity `a` has no cached
handle. Its first `getDriveService` succeeds with the handle 1, and afterwards
the identity still holds no handle; the second call on it authenticates and
builds a session again and returns the new handle 2, not the handle 1. -/
theorem C11_session_handle_is_not_cached :
    (storageAccount "a").service = none ∧
      (getDriveServiceRun (sessionOk 1) (storageAccount "a")).out = .ok ⟨1⟩ ∧
      (getDriveServiceRun (sessionOk 1) (storageAccount "a")).receiver.service = none ∧
      (getDriveServiceRun (sessionOk 2)
          (getDriveServiceRun (sessionOk 1) (storageAccount "a")).receiver).log
        = [.getServiceAccountClient (storageAccount "a").ServiceAccountJson, .newService ⟨2⟩] ∧
      (getDriveServiceRun (sessionOk 2)
          (getDriveServiceRun (sessionOk 1) (storageAccount "a")).receiver).out = .ok ⟨2⟩ := by
  decide

/-! ## Lookup by name on reachable services -/

theorem Reachable.cacheSound (c : CloudDriveService) (h : Reachable c) :
    CloudDrive.cacheSound c = true := by
  induction h with
  | init keyFile file ans c h => exact NewCloudDriveService_cacheSound keyFile file ans c h
  | step c name _ ih => exact (getServiceAccountByName_sound c ih name).2.1

theorem find_name_none (pool : List ServiceAccount) (name : String) :
    pool.find? (fun acc => acc.Name = name) = none ↔ ¬ ∃ acc ∈ pool, acc.Name = name := by
  simp [List.find?_eq_none]

/-- C12: on every service reachable from `NewCloudDriveService` by calls of
`getServiceAccountByName`, and for every name, `getServiceAccountByName(name)`
returns an identity named `name` exactly when some storage identity has that
name; the identity returned is a storage identity and the name cache afterwards
maps `name` to it; when no storage identity has that name it returns nil and
leaves the service, its name cache included, as it was. -/
theorem C12_lookup_by_name (c : CloudDriveService) (hr : Reachable c) (name : String) :
    ((∃ a, (getServiceAccountByName c name).1 = some a ∧ a.Name = name) ↔
        ∃ acc ∈ c.StorageServiceAccount, acc.Name = name) ∧
      (∀ a, (getServiceAccountByName c name).1 = some a →
        a.Name = name ∧ a ∈ c.StorageServiceAccount ∧
        (getServiceAccountByName c name).2.serviceAccountMap.lookup name = some a) ∧
      ((¬ ∃ acc ∈ c.StorageServiceAccount, acc.Name = name) →
        (getServiceAccountByName c name).1 = none ∧ (getServiceAccountByName c name).2 = c) := by
  have hc := Reachable.cacheSound c hr
  obtain ⟨h1, -, -, -⟩ := getServiceAccountByName_sound c hc name
  have hsome : ∀ a, (getServiceAccountByName c name).1 = some a →
      a.Name = name ∧ a ∈ c.StorageServiceAccount ∧
      (getServiceAccountByName c name).2.serviceAccountMap.lookup name = some a := by
    intro a ha
    rw [h1] at ha
    have hn := find_name_eq _ _ _ ha
    refine ⟨hn, List.mem_of_find?_eq_some ha, ?_⟩
    unfold getServiceAccountByName
    cases hl : c.serviceAccountMap.lookup name with
    | some b =>
      have := cacheSound_lookup c hc name b hl
      rw [ha] at this
      simp only
      rw [hl, this]
    | none =>
      simp only [ha, hn]
      simp [List.lookup_cons]
  refine ⟨⟨?_, ?_⟩, hsome, ?_⟩
  · rintro ⟨a, ha, hn⟩
    exact ⟨a, (hsome a ha).2.1, hn⟩
  · intro hex
    cases hf : c.StorageServiceAccount.find? (fun acc => acc.Name = name) with
    | none => exact absurd hex ((find_name_none _ _).mp hf)
    | some a => exact ⟨a, by rw [h1, hf], find_name_eq _ _ _ hf⟩
  · intro hno
    have hf := (find_name_none _ name).mpr hno
    refine ⟨by rw [h1, hf], ?_⟩
    unfold getServiceAccountByName
    cases hl : c.serviceAccountMap.lookup name with
    | some b =>
      have := cacheSound_lookup c hc name b hl
      simp [hf] at this
    | none => simp only [hf]

/-- C12 at a concrete input: the service built from `bundleTwoKeys`, asked for
the name "s1". -/
theorem C12_lookup_by_name_witness :
    ((∃ a, (getServiceAccountByName serviceTwoKeys "s1").1 = some a ∧ a.Name = "s1") ↔
        ∃ acc ∈ serviceTwoKeys.StorageServiceAccount, acc.Name = "s1") ∧
      (∀ a, (getServiceAccountByName serviceTwoKeys "s1").1 = some a →
        a.Name = "s1" ∧ a ∈ serviceTwoKeys.StorageServiceAccount ∧
        (getServiceAccountByName serviceTwoKeys "s1").2.serviceAccountMap.lookup "s1"
          = some a) ∧
      ((¬ ∃ acc ∈ serviceTwoKeys.StorageServiceAccount, acc.Name = "s1") →
        (getServiceAccountByName serviceTwoKeys "s1").1 = none ∧
        (getServiceAccountByName serviceTwoKeys "s1").2 = serviceTwoKeys) :=
  C12_lookup_by_name serviceTwoKeys
    (Reachable.init "key.json" (.ok (.ok bundleTwoKeys)) (sessionOk 0) serviceTwoKeys
      (by decide)) "s1"

/-! ## A failed selection -/

/-- C13: the pool `[a, b]` has two storage identities; for 10 bytes the first
reports 100 free bytes and the quota query of the second fails. Called with the
memo unset, `getNextServiceAccount` returns the storage-info error, yet it
leaves the memo set, and the next call (whatever its pool, size and remote
answers) returns an identity without error and issues no call at all. This
holds under either loop-variable rule. -/
theorem C13_failed_selection_leaves_memo_set :
    poolAB.StorageServiceAccount.length = 2 ∧
      (probesOf quotasSecondFails 0).about = .ok (some { Limit := 100, Usage := 0 }) ∧
      10 < freeCapacity { Limit := 100, Usage := 0 } ∧
      (probesOf quotasSecondFails 1).about = .error (.external "no answer") ∧
      ∀ lv,
        (getNextServiceAccount lv poolAB 10 (probesOf quotasSecondFails) ⟨none⟩).out
          = .returned (.error (.storageInfo (.external "no answer"))) ∧
        ∃ a,
          (getNextServiceAccount lv poolAB 10 (probesOf quotasSecondFails)
            ⟨none⟩).globals.lastServiceAccount = some a ∧
          ∀ (c : CloudDriveService) (size : Int) (probes : Nat → Probe),
            getNextServiceAccount lv c size probes
                (getNextServiceAccount lv poolAB 10 (probesOf quotasSecondFails) ⟨none⟩).globals
              = { globals :=
                    (getNextServiceAccount lv poolAB 10 (probesOf quotasSecondFails)
                      ⟨none⟩).globals,
                  log := [], out := .returned (.ok a) } := by
  refine ⟨by decide, by decide, by decide, by decide, fun lv => ?_⟩
  cases lv with
  | shared =>
    refine ⟨by decide, storageAccount "b", by decide, fun c size probes => ?_⟩
    exact getNextServiceAccount_memo _ c size probes _ _ (by decide)
  | perIteration =>
    refine ⟨by decide, storageAccount "a", by decide, fun c size probes => ?_⟩
    exact getNextServiceAccount_memo _ c size probes _ _ (by decide)

end CloudDrive
